import Mathlib

/-!
Shallow embedding of the SKYPOINT_SOCIAL post-scheduling service.

Sources embedded (TypeScript):
- src/src/services/socialMediaService.ts (first version in the file):
  postToFacebook, postToLinkedIn, postToInstagram, postToSocialMedia.
- src/unnamed/part_002, first GET handler (process-scheduled-posts dispatch
  trigger) and the POST cleanup/completion callback.
- src/unnamed/part_003 (src/app/api/posts/route.ts): GET (list), POST
  (create), PUT (update), DELETE.
- src/src/app/api/notion-webhook/route.ts: POST (webhook intake).

Modelling conventions:
- JavaScript string values are Lean String; a missing (null or undefined)
  string field is Option String with none.
- The post_media field is stored sometimes as a string (webhook intake) and
  sometimes as an array of strings (create endpoint); MediaVal captures the
  JavaScript value with its truthiness, because the LinkedIn publisher
  branches on the raw truthiness of that value.
- A Record<string, string> is an association list with last-write-wins
  insertion (recSet), matching JavaScript object spread semantics.
- Dates are Int millisecond timestamps.
- External HTTP outcomes (LinkedIn API calls, Date.now) are fields of an
  Env record; the simulated facebook and instagram publishers succeed
  unconditionally as in the source.
- A thrown JavaScript exception is the error case of Except; each handler
  has an outer try/catch that maps it to a 500 response (or, inside
  postToLinkedIn, to a failed PostResult).
-/

/-- JavaScript value stored in the post_media field. -/
inductive MediaVal
  | undef
  | str (s : String)
  | arr (xs : List String)
deriving DecidableEq, Repr

/-- JavaScript truthiness of a post_media value: undefined is falsy, a
string is truthy iff nonempty, an array is always truthy (even empty). -/
def MediaVal.truthy : MediaVal → Bool
  | .undef => false
  | .str s => s ≠ ""
  | .arr _ => true

/-- Truthiness of an optional string (null/undefined or empty string is falsy). -/
def optStrTruthy : Option String → Bool
  | none => false
  | some s => s ≠ ""

/-- Record key lookup: first binding of the key. -/
def recGet (m : List (String × String)) (k : String) : Option String :=
  (m.find? (fun p => p.1 = k)).map (fun p => p.2)

/-- Record key membership. -/
def recHas (m : List (String × String)) (k : String) : Bool :=
  m.any (fun p => p.1 = k)

/-- JavaScript object property assignment: overwrite the binding in place
when the key exists, append otherwise. -/
def recSet (m : List (String × String)) (k v : String) : List (String × String) :=
  if m.any (fun p => p.1 = k) then
    m.map (fun p => if p.1 = k then (k, v) else p)
  else
    m ++ [(k, v)]

/-- JavaScript object spread: overlay every binding of b onto a. -/
def recMerge (a b : List (String × String)) : List (String × String) :=
  b.foldl (fun acc p => recSet acc p.1 p.2) a

/-- ASCII lowercasing of one character, as in String.prototype.toLowerCase. -/
def jsCharLower (c : Char) : Char :=
  if c.isUpper then Char.toLower c else c

/-- String.prototype.toLowerCase. -/
def jsToLower (s : String) : String :=
  String.mk (s.data.map jsCharLower)

/-- Digit character for Number.prototype.toString with radix 36. -/
def base36Char (n : Nat) : Char :=
  if n < 10 then Char.ofNat (48 + n) else Char.ofNat (87 + n)

/-- Digit loop of Number.prototype.toString(36); the fuel argument only
bounds the recursion depth and never runs out when it starts at n + 1. -/
def natToBase36Aux : Nat → Nat → List Char
  | 0, _ => []
  | fuel + 1, n =>
    if n < 36 then [base36Char n]
    else natToBase36Aux fuel (n / 36) ++ [base36Char (n % 36)]

/-- Number.prototype.toString(36) on a nonnegative integer. -/
def natToBase36 (n : Nat) : List Char :=
  natToBase36Aux (n + 1) n

/-- The persisted post record (src/unnamed/part_000, SocialMediaPost),
with the Mongo _id modelled as a Nat and status as the raw stored string
(the database itself enforces no enumeration). -/
structure Post where
  id : Nat
  post_text : String
  post_media : MediaVal
  scheduled_date : Int
  team : Option String
  post_notes : Option String
  status : String
  post_links : List (String × String)
  platforms : List String
  created_at : Int
  updated_at : Int
  failure_reason : Option String
deriving DecidableEq, Repr

/-- Result of one platform publisher (interface PostResult). The links
field is optional exactly as in the source. -/
structure PostResult where
  success : Bool
  links : Option (List (String × String))
  error : Option String
deriving DecidableEq, Repr

/-- Accumulated result of postToSocialMedia; its links field is always
initialised to the empty record, hence not optional. -/
structure AggResult where
  success : Bool
  links : List (String × String)
  error : Option String
deriving DecidableEq, Repr

/-- Snapshot of the process environment and of every external HTTP outcome
reached during one publish attempt. -/
structure Env where
  nowMs : Nat
  linkedinToken : Option String
  liRegisterOk : Bool
  liRegisterAsset : String
  liRegisterUploadUrl : String
  liDownloadOk : Bool
  liUploadOk : Bool
  liPublishOk : Bool
  liPublishId : String
deriving DecidableEq, Repr

/-- postToFacebook: simulated publisher, always succeeds with a synthesized
URL built from Date.now(). -/
def postToFacebook (env : Env) (_post : Post) : PostResult :=
  { success := true
    links := some [("facebook", "https://facebook.com/post/" ++ toString env.nowMs)]
    error := none }

/-- postToInstagram: simulated publisher, always succeeds with a synthesized
URL built from Date.now().toString(36). -/
def postToInstagram (env : Env) (_post : Post) : PostResult :=
  { success := true
    links := some [("instagram", "https://instagram.com/p/" ++ String.mk (natToBase36 env.nowMs))]
    error := none }

/-- The regex test post_media.match of a dot-extension video pattern,
case-insensitive, anchored at the end of the string. -/
def isVideoMatch (s : String) : Bool :=
  let l := jsToLower s
  l.endsWith ".mp4" || l.endsWith ".mov" || l.endsWith ".avi" ||
  l.endsWith ".wmv" || l.endsWith ".flv" || l.endsWith ".webm"

/-- Calling .match on the raw post_media value: on a string it runs the
regex; on an array there is no match method, so a TypeError is thrown. -/
def jsMatchVideo : MediaVal → Except String Bool
  | .str s => .ok (isVideoMatch s)
  | .arr _ => .error "post.post_media.match is not a function"
  | .undef => .error "Cannot read properties of undefined (reading match)"

/-- Body of postToLinkedIn before its outer try/catch; Except.error is a
thrown exception reaching that catch. -/
def postToLinkedInBody (env : Env) (post : Post) : Except String PostResult :=
  if !(optStrTruthy env.linkedinToken) then
    .ok { success := false, links := none, error := some "LinkedIn access token not configured" }
  else if post.post_media.truthy then
    match jsMatchVideo post.post_media with
    | .error e => .error e
    | .ok isVideo =>
      let mediaType := if isVideo then "video" else "image"
      if !env.liRegisterOk then
        .ok { success := false, links := none,
              error := some "Failed to register media upload with LinkedIn" }
      else if !env.liDownloadOk then
        .ok { success := false, links := none,
              error := some "Failed to download media: download error" }
      else if !env.liUploadOk then
        .ok { success := false, links := none,
              error := some "Failed to upload media to LinkedIn" }
      else if !env.liPublishOk then
        .error ("LinkedIn API error for " ++ mediaType)
      else
        .ok { success := true
              links := some [("linkedin", "https://www.linkedin.com/feed/update/" ++ env.liPublishId)]
              error := none }
  else
    if !env.liPublishOk then
      .error "LinkedIn API error"
    else
      .ok { success := true
            links := some [("linkedin", "https://www.linkedin.com/feed/update/" ++ env.liPublishId)]
            error := none }

/-- postToLinkedIn: the outer try/catch turns a thrown exception into a
failed PostResult carrying the message. -/
def postToLinkedIn (env : Env) (post : Post) : PostResult :=
  match postToLinkedInBody env post with
  | .ok r => r
  | .error e => { success := false, links := none, error := some e }

/-- The switch on platform.toLowerCase() inside postToSocialMedia. -/
def publishPlatform (env : Env) (post : Post) (platform : String) : PostResult :=
  match jsToLower platform with
  | "facebook" => postToFacebook env post
  | "linkedin" => postToLinkedIn env post
  | "instagram" => postToInstagram env post
  | _ => { success := false, links := none,
           error := some ("Unsupported platform: " ++ platform) }

/-- One iteration of the platform loop in postToSocialMedia: degrade the
overall success flag, spread-merge the links, concatenate the errors. -/
def mergePlatform (env : Env) (post : Post) (acc : AggResult) (platform : String) : AggResult :=
  let r := publishPlatform env post platform
  { success := if r.success then acc.success else false
    links := match r.links with
      | some l => recMerge acc.links l
      | none => acc.links
    error := match r.error with
      | some e => some (match acc.error with
          | some ae => ae ++ "; " ++ platform ++ ": " ++ e
          | none => platform ++ ": " ++ e)
      | none => acc.error }

/-- postToSocialMedia: fold the platform loop over the post platform list,
starting from success true and the empty links record. -/
def postToSocialMedia (env : Env) (post : Post) : AggResult :=
  post.platforms.foldl (mergePlatform env post)
    { success := true, links := [], error := none }

/-- Per-post body of the dispatch trigger loop (part_002 first GET): run
the aggregator and write back status, post_links and updated_at. -/
def processPost (env : Env) (now : Int) (p : Post) : Post :=
  let r := postToSocialMedia env p
  { p with
    status := if r.success then "posted" else "failed"
    post_links := r.links
    updated_at := now }

/-- Whether the dispatch trigger selects a record: status pending and
scheduled_date at most one hour from now. -/
def dispatchSelects (now : Int) (p : Post) : Bool :=
  p.status = "pending" && p.scheduled_date ≤ now + 3600000

/-- The dispatch trigger over a whole store: each selected record is
processed and updated in place, the rest are untouched. -/
def dispatchTrigger (env : Env) (now : Int) (store : List Post) : List Post :=
  store.map (fun p => if dispatchSelects now p then processPost env now p else p)

/-- Outcome of a mutating handler: HTTP status code and the resulting
store contents. -/
structure HandlerOutcome where
  status : Nat
  store : List Post
deriving DecidableEq, Repr

/-- The parsed postData JSON blob of the create endpoint. Media files are
modelled by the URLs the opaque Cloudinary upload returns for them. -/
structure PostFields where
  post_text : String
  scheduled_date : Int
  team : Option String
  post_notes : Option String
  platforms : List String
deriving DecidableEq, Repr

/-- A create request (part_003 POST): form fields secretKey, postData,
media (as resulting Cloudinary URLs) and the isDraft flag. none for
postData covers the falsy cases (field absent or empty string). -/
structure CreateReq where
  secretKey : Option String
  postData : Option PostFields
  media : List String
  isDraft : Bool
deriving DecidableEq, Repr

/-- The record the create handler inserts: the parsed blob fields with
post_media set to the uploaded URL array, status draft or pending by the
isDraft flag, fresh post_links, and both timestamps set to now. -/
def createdRecord (now : Int) (newId : Nat) (pd : PostFields)
    (media : List String) (isDraft : Bool) : Post :=
  { id := newId
    post_text := pd.post_text
    post_media := .arr media
    scheduled_date := pd.scheduled_date
    team := pd.team
    post_notes := pd.post_notes
    status := if isDraft then "draft" else "pending"
    post_links := []
    platforms := pd.platforms
    created_at := now
    updated_at := now
    failure_reason := none }

/-- The create handler (part_003 POST): secret gate, postData presence
check, media upload, insert with status draft or pending by isDraft. The
Mongo-generated id of the inserted document is the newId argument. -/
def createPost (serverKey : Option String) (now : Int) (newId : Nat)
    (req : CreateReq) (store : List Post) : HandlerOutcome :=
  match serverKey with
  | none => ⟨500, store⟩
  | some sk =>
    if req.secretKey ≠ some sk then ⟨401, store⟩
    else match req.postData with
      | none => ⟨400, store⟩
      | some pd =>
        ⟨201, store ++ [createdRecord now newId pd req.media req.isDraft]⟩

/-- The parsed postData JSON blob of the update endpoint; none means the
field is absent from the JSON (or falsy, for scheduled_date, whose raw
value is tested for truthiness before Date parsing). -/
structure UpdateBlob where
  post_text : Option String
  scheduled_date : Option Int
  team : Option String
  post_notes : Option String
  status : Option String
  platforms : Option (List String)
deriving DecidableEq, Repr

/-- An update request (part_003 PUT). The raw id form field is modelled in
two layers: outer none is a missing id (400), inner none is a string that
fails ObjectId.isValid (400), some some pid is a well-formed id. -/
structure UpdateReq where
  id : Option (Option Nat)
  secretKey : Option String
  blob : UpdateBlob
  media : List String
  deletedIdx : List Nat
deriving DecidableEq, Repr

/-- Spread of the supplied JSON fields over the stored record; fields the
blob omits keep their stored values (the undefined-field cleanup loop in
the source deletes exactly the omitted keys before the $set). The computed
scheduled_date and updated_at overrides are applied by the caller. -/
def applyBlob (p : Post) (b : UpdateBlob) : Post :=
  { p with
    post_text := b.post_text.getD p.post_text
    team := match b.team with | some t => some t | none => p.team
    post_notes := match b.post_notes with | some t => some t | none => p.post_notes
    status := b.status.getD p.status
    platforms := b.platforms.getD p.platforms }

/-- The existing-media filter of the update endpoint: keep entries whose
index is not marked deleted. -/
def filterIdx (xs : List String) (deleted : List Nat) : List String :=
  (xs.enum.filter (fun p => !(deleted.contains p.1))).map (fun p => p.2)

/-- Combination of existing media, deletions and new uploads. The guard in
the source is post_media truthy and of positive length; a nonempty string
value then reaches .filter, which only arrays have, so a TypeError is
thrown (caught by the outer try/catch as a 500). -/
def combineMedia (pm : MediaVal) (deleted : List Nat) (newUrls : List String) :
    Except String (List String) :=
  match pm with
  | .str s => if s ≠ "" then .error "post.post_media.filter is not a function"
              else .ok newUrls
  | .arr xs => .ok (filterIdx xs deleted ++ newUrls)
  | .undef => .ok newUrls

/-- The write phase of the update endpoint, after the secret gate: build
updateFields from the blob with the scheduled_date fallback to the current
time, resolve media, $set into the matched record. -/
def putApply (now : Int) (req : UpdateReq) (store : List Post) (pid : Nat) :
    HandlerOutcome :=
  match combineMedia ((store.find? (fun p => p.id = pid)).map Post.post_media
      |>.getD .undef) req.deletedIdx req.media with
  | .error _ => ⟨500, store⟩
  | .ok finalMedia =>
    let upd := fun (q : Post) =>
      let q1 := applyBlob q req.blob
      let q2 := { q1 with
        scheduled_date := match req.blob.scheduled_date with
          | some d => d
          | none => now
        updated_at := now }
      if finalMedia.length > 0 then { q2 with post_media := .arr finalMedia } else q2
    ⟨200, store.map (fun q => if q.id = pid then upd q else q)⟩

/-- The update handler (part_003 PUT): id presence and validity checks,
record lookup, secret gate only while the record status is draft or
pending, then the write phase. -/
def putPost (serverKey : Option String) (now : Int) (req : UpdateReq)
    (store : List Post) : HandlerOutcome :=
  match req.id with
  | none => ⟨400, store⟩
  | some none => ⟨400, store⟩
  | some (some pid) =>
    match store.find? (fun p => p.id = pid) with
    | none => ⟨404, store⟩
    | some post =>
      if post.status = "draft" || post.status = "pending" then
        match serverKey with
        | none => ⟨500, store⟩
        | some sk =>
          if req.secretKey ≠ some sk then ⟨401, store⟩
          else putApply now req store pid
      else putApply now req store pid

/-- A delete request (part_003 DELETE): JSON body with id and secretKey;
id layered as in UpdateReq. -/
structure DeleteReq where
  id : Option (Option Nat)
  secretKey : Option String
deriving DecidableEq, Repr

/-- The delete handler (part_003 DELETE): same gating as update, then
deleteOne by id. -/
def deletePost (serverKey : Option String) (req : DeleteReq)
    (store : List Post) : HandlerOutcome :=
  match req.id with
  | none => ⟨400, store⟩
  | some none => ⟨400, store⟩
  | some (some pid) =>
    match store.find? (fun p => p.id = pid) with
    | none => ⟨404, store⟩
    | some post =>
      if post.status = "draft" || post.status = "pending" then
        match serverKey with
        | none => ⟨500, store⟩
        | some sk =>
          if req.secretKey ≠ some sk then ⟨401, store⟩
          else ⟨200, store.filter (fun p => p.id ≠ pid)⟩
      else ⟨200, store.filter (fun p => p.id ≠ pid)⟩

/-- countDocuments with a status equality filter. -/
def countStatus (store : List Post) (s : String) : Nat :=
  (store.filter (fun p => p.status = s)).length

/-- Insertion step of the created_at descending sort used by the list
endpoint. -/
def insertByCreatedDesc (p : Post) : List Post → List Post
  | [] => [p]
  | q :: qs => if q.created_at ≤ p.created_at then p :: q :: qs
               else q :: insertByCreatedDesc p qs

/-- The sort({created_at: -1}) of the list endpoint: newest first. -/
def sortByCreatedDesc (l : List Post) : List Post :=
  l.foldr insertByCreatedDesc []

/-- Response of the list endpoint: the page plus the dashboard counts. -/
structure ListResult where
  posts : List Post
  total : Nat
  draft : Nat
  pending : Nat
  posted : Nat
  failed : Nat
  partialSuccess : Nat
deriving DecidableEq, Repr

/-- The list handler (part_003 GET): the status filter is applied to the
query only when truthy, the page is sort, skip, limit of the filtered
collection, and every count is taken over the unfiltered collection. -/
def listPosts (store : List Post) (limitv skipv : Nat)
    (statusFilter : Option String) : ListResult :=
  let matched := if optStrTruthy statusFilter then
      store.filter (fun p => p.status = statusFilter.getD "")
    else store
  { posts := ((sortByCreatedDesc matched).drop skipv).take limitv
    total := store.length
    draft := countStatus store "draft"
    pending := countStatus store "pending"
    posted := countStatus store "posted"
    failed := countStatus store "failed"
    partialSuccess := countStatus store "partial_success" }

/-- The Make.com completion-callback request body (part_002 POST): the
post_id layered as in UpdateReq, plus the four optional platform URLs. -/
structure CleanupReq where
  post_id : Option (Option Nat)
  facebook_url : Option String
  linkedin_url : Option String
  instagram_url : Option String
  x_url : Option String
deriving DecidableEq, Repr

/-- The post_links object the callback builds: one assignment per truthy
URL field, in source order; the keys are pairwise distinct so the
sequential assignments are plain appends. -/
def cleanupLinks (req : CleanupReq) : List (String × String) :=
  (if optStrTruthy req.facebook_url then [("facebook", req.facebook_url.getD "")] else []) ++
  (if optStrTruthy req.linkedin_url then [("linkedin", req.linkedin_url.getD "")] else []) ++
  (if optStrTruthy req.instagram_url then [("instagram", req.instagram_url.getD "")] else []) ++
  (if optStrTruthy req.x_url then [("x", req.x_url.getD "")] else [])

/-- The completion-callback handler (part_002 POST): 400 on missing or
malformed post_id, otherwise status posted when at least one URL was
supplied and failed when none, with post_links set to the supplied URLs, a
failure_reason on the failed branch, and 404 when no record matches. -/
def cleanupPost (now : Int) (req : CleanupReq) (store : List Post) :
    HandlerOutcome :=
  match req.post_id with
  | none => ⟨400, store⟩
  | some none => ⟨400, store⟩
  | some (some pid) =>
    let links := cleanupLinks req
    let finalStatus := if links.length > 0 then "posted" else "failed"
    if (store.find? (fun p => p.id = pid)).isSome then
      ⟨200, store.map (fun p => if p.id = pid then
        { p with
          status := finalStatus
          updated_at := now
          post_links := links
          failure_reason := if links.length > 0 then p.failure_reason
            else some "Make.com scenario completed but returned no post URLs." }
        else p)⟩
    else ⟨404, store⟩

/-- The Notion webhook payload fields as the handler extracts them: every
rich-text or select lookup falls back to the empty string, the status
select and the scheduled date start are kept optional. -/
structure WebhookReq where
  page_id : Option String
  post_text : String
  post_media : String
  scheduled_date : Option Int
  team : String
  post_notes : String
  status : Option String
  platforms : List String
deriving DecidableEq, Repr

/-- The webhook intake handler (notion-webhook route POST): 400 when
page_id, post text or scheduled date is missing, otherwise insert one
record whose status is the payload status string, unvalidated, defaulting
to pending when the field is falsy. post_media is stored as a string. -/
def notionWebhook (now : Int) (newId : Nat) (req : WebhookReq)
    (store : List Post) : HandlerOutcome :=
  let status := match req.status with
    | some s => if s ≠ "" then s else "pending"
    | none => "pending"
  if !(optStrTruthy req.page_id) || req.post_text = "" || req.scheduled_date.isNone then
    ⟨400, store⟩
  else
    ⟨200, store ++ [{
      id := newId
      post_text := req.post_text
      post_media := .str req.post_media
      scheduled_date := req.scheduled_date.getD 0
      team := some req.team
      post_notes := some req.post_notes
      status := status
      post_links := []
      platforms := req.platforms
      created_at := now
      updated_at := now
      failure_reason := none }]⟩

/-- Membership in the five-value status enumeration of the data model. -/
def isFiveStatus (s : String) : Bool :=
  s = "draft" || s = "pending" || s = "posted" || s = "failed" || s = "partial_success"

/-- Environment with every LinkedIn HTTP call succeeding but no access
token configured, so the LinkedIn publisher fails while the simulated
publishers succeed. -/
def envNoToken : Env :=
  { nowMs := 7, linkedinToken := none, liRegisterOk := true,
    liRegisterAsset := "asset1", liRegisterUploadUrl := "upload1",
    liDownloadOk := true, liUploadOk := true, liPublishOk := true,
    liPublishId := "id1" }

/-- Environment with a configured token and every LinkedIn call succeeding. -/
def envTok : Env := { envNoToken with linkedinToken := some "token1" }

/-- A pending post carrying the empty media array the create endpoint
stores when no files are attached. -/
def samplePost : Post :=
  { id := 1, post_text := "Launch day!", post_media := .arr [],
    scheduled_date := 0, team := none, post_notes := none,
    status := "pending", post_links := [], platforms := ["facebook", "linkedin"],
    created_at := 0, updated_at := 0, failure_reason := none }

/-- Post-fields blob with empty body text and empty platform list. -/
def emptyFields : PostFields :=
  { post_text := "", scheduled_date := 0, team := none, post_notes := none,
    platforms := [] }

/-- C1: the dispatch trigger is claimed to write a three-way status, with a
mixed per-platform outcome mapped to partial_success. The code computes
only a two-way status from the overall success flag: on a pending post
listing facebook and linkedin where the facebook publisher succeeds and
the linkedin publisher fails (no token configured), the status written
back is failed, not partial_success. -/
theorem c1_mixed_outcome_written_failed :
    (publishPlatform envNoToken samplePost "facebook").success = true ∧
    (publishPlatform envNoToken samplePost "linkedin").success = false ∧
    (processPost envNoToken 5 samplePost).status = "failed" ∧
    (processPost envNoToken 5 samplePost).status ≠ "partial_success" :=
  ⟨by decide, by decide, by decide, by decide⟩

/-- C3: a post created through the create endpoint without attached media
stores post_media as the empty array; the LinkedIn publisher tests the raw
truthiness of post_media, and an empty array is truthy, so such a post
takes the media path, not the claimed text-only path, and the publish
attempt fails with the TypeError thrown by calling .match on an array. -/
theorem c3_no_media_create_takes_media_path :
    ((createPost (some "k") 0 1
        { secretKey := some "k", postData := some emptyFields,
          media := [], isDraft := false } []).store.map Post.post_media
      = [.arr []]) ∧
    MediaVal.truthy (.arr []) = true ∧
    postToLinkedIn envTok samplePost =
      { success := false, links := none,
        error := some "post.post_media.match is not a function" } :=
  ⟨by decide, by decide, by decide⟩

/-- C9: a post with an empty platform list makes the aggregator return
success true with the empty links record without consulting any publisher,
and the dispatch trigger therefore marks such a selected pending post
posted with empty post_links. -/
theorem c9_empty_platforms_marked_posted (env : Env) (now : Int) (post : Post)
    (hplat : post.platforms = []) (hsel : dispatchSelects now post = true) :
    postToSocialMedia env post = { success := true, links := [], error := none } ∧
    dispatchTrigger env now [post] =
      [{ post with status := "posted", post_links := [], updated_at := now }] := by
  have h1 : postToSocialMedia env post = { success := true, links := [], error := none } := by
    unfold postToSocialMedia
    rw [hplat]
    rfl
  refine ⟨h1, ?_⟩
  unfold dispatchTrigger
  simp [hsel, processPost, h1]

/-- Witness for C9 at a concrete pending post with no platforms. -/
theorem c9_witness :
    postToSocialMedia envNoToken { samplePost with platforms := [] } =
      { success := true, links := [], error := none } ∧
    dispatchTrigger envNoToken 0 [{ samplePost with platforms := [] }] =
      [{ samplePost with
          platforms := []
          status := "posted"
          post_links := []
          updated_at := 0 }] :=
  c9_empty_platforms_marked_posted envNoToken 0
    { samplePost with platforms := [] } (by decide) (by decide)

/-- An update blob that changes nothing. -/
def emptyBlob : UpdateBlob :=
  { post_text := none, scheduled_date := none, team := none,
    post_notes := none, status := none, platforms := none }

/-- C4: every update or delete request targeting a post whose current
status is draft or pending fails with 401 when the supplied shared secret
does not match the server secret, and the store is returned completely
unchanged (the 401 return fires before any write, so no field, including
updated_at, is modified). -/
theorem c4_wrong_secret_401_unchanged
    (sk : String) (now : Int) (pid : Nat) (store : List Post) (post : Post)
    (ureq : UpdateReq) (dreq : DeleteReq)
    (hfind : store.find? (fun p => p.id = pid) = some post)
    (hstatus : post.status = "draft" ∨ post.status = "pending")
    (huid : ureq.id = some (some pid)) (hukey : ureq.secretKey ≠ some sk)
    (hdid : dreq.id = some (some pid)) (hdkey : dreq.secretKey ≠ some sk) :
    putPost (some sk) now ureq store = ⟨401, store⟩ ∧
    deletePost (some sk) dreq store = ⟨401, store⟩ := by
  constructor
  · unfold putPost
    rw [huid]
    dsimp only
    rw [hfind]
    dsimp only
    rcases hstatus with h | h <;> simp [h, hukey]
  · unfold deletePost
    rw [hdid]
    dsimp only
    rw [hfind]
    dsimp only
    rcases hstatus with h | h <;> simp [h, hdkey]

/-- Witness for C4: a concrete pending post, server secret k, submitted
secret wrong, for both update and delete. -/
theorem c4_witness :
    putPost (some "k") 9
      { id := some (some 1), secretKey := some "wrong",
        blob := emptyBlob, media := [], deletedIdx := [] }
      [samplePost] = ⟨401, [samplePost]⟩ ∧
    deletePost (some "k")
      { id := some (some 1), secretKey := none }
      [samplePost] = ⟨401, [samplePost]⟩ :=
  c4_wrong_secret_401_unchanged "k" 9 1 [samplePost] samplePost
    { id := some (some 1), secretKey := some "wrong",
      blob := emptyBlob, media := [], deletedIdx := [] }
    { id := some (some 1), secretKey := none }
    (by decide) (Or.inr (by decide)) rfl (by decide) rfl (by decide)

/-- Write phase of the update endpoint on the successful media branch: the
response is 200 and every record matching the id gets scheduled_date set
to the supplied date or, when the blob omits it, to the current time;
updated_at is set to the current time and a supplied status is applied. -/
theorem putApply_ok_fields (now : Int) (req : UpdateReq) (store : List Post)
    (pid : Nat) (fm : List String)
    (hcm : combineMedia (((store.find? (fun p => p.id = pid)).map Post.post_media).getD .undef)
        req.deletedIdx req.media = .ok fm) :
    (putApply now req store pid).status = 200 ∧
    ∀ p ∈ (putApply now req store pid).store, p.id = pid →
      (p.scheduled_date = req.blob.scheduled_date.getD now ∧
       p.updated_at = now ∧
       ∀ st, req.blob.status = some st → p.status = st) := by
  unfold putApply
  rw [hcm]
  dsimp only
  refine ⟨rfl, ?_⟩
  intro p hp hpid
  rw [List.mem_map] at hp
  obtain ⟨q, hq, hpq⟩ := hp
  by_cases h : q.id = pid
  · rw [if_pos h] at hpq
    subst hpq
    refine ⟨?_, ?_, ?_⟩
    · by_cases hf : fm.length > 0 <;>
        [rw [if_pos hf]; rw [if_neg hf]] <;>
        cases req.blob.scheduled_date <;> rfl
    · by_cases hf : fm.length > 0 <;>
        [rw [if_pos hf]; rw [if_neg hf]]
    · intro st hst
      by_cases hf : fm.length > 0 <;>
        [rw [if_pos hf]; rw [if_neg hf]] <;>
        simp [applyBlob, hst]
  · rw [if_neg h] at hpq
    subst hpq
    exact absurd hpid h

/-- Inversion for the update handler: a 200 response means control reached
the write phase, so the outcome is exactly that of putApply. -/
theorem putPost_200_eq_putApply (sk : String) (now : Int) (req : UpdateReq)
    (store : List Post) (pid : Nat)
    (hid : req.id = some (some pid))
    (hsucc : (putPost (some sk) now req store).status = 200) :
    putPost (some sk) now req store = putApply now req store pid := by
  unfold putPost at hsucc ⊢
  rw [hid] at hsucc ⊢
  dsimp only at hsucc ⊢
  cases hfind : store.find? (fun p => p.id = pid) with
  | none =>
    rw [hfind] at hsucc
    simp at hsucc
  | some post =>
    rw [hfind] at hsucc
    dsimp only at hsucc ⊢
    by_cases hb : (decide (post.status = "draft") || decide (post.status = "pending")) = true
    · rw [if_pos hb] at hsucc ⊢
      by_cases hkey : req.secretKey ≠ some sk
      · rw [if_pos hkey] at hsucc; simp at hsucc
      · rw [if_neg hkey]
    · rw [if_neg hb]

/-- C10: on every successful update the stored scheduled_date is written:
it becomes the supplied date when the blob carries one and the current
time when the blob omits it, never the previously stored value by
default. -/
theorem c10_scheduled_date_always_written (sk : String) (now : Int)
    (req : UpdateReq) (store : List Post) (pid : Nat)
    (hid : req.id = some (some pid))
    (hsucc : (putPost (some sk) now req store).status = 200) :
    ∀ p ∈ (putPost (some sk) now req store).store, p.id = pid →
      p.scheduled_date = req.blob.scheduled_date.getD now := by
  have heq := putPost_200_eq_putApply sk now req store pid hid hsucc
  rw [heq] at hsucc ⊢
  cases hcm : combineMedia (((store.find? (fun p => p.id = pid)).map Post.post_media).getD .undef)
      req.deletedIdx req.media with
  | error e =>
    unfold putApply at hsucc
    rw [hcm] at hsucc
    simp at hsucc
  | ok fm =>
    intro p hp hpid
    exact ((putApply_ok_fields now req store pid fm hcm).2 p hp hpid).1

/-- The update request of the C10 witness: correct secret, empty blob. -/
def c10Req : UpdateReq :=
  { id := some (some 1), secretKey := some "k",
    blob := emptyBlob, media := [], deletedIdx := [] }

/-- Witness for C10: an update of the stored pending post whose blob omits
scheduled_date succeeds and rewrites scheduled_date to the current time 9,
away from the stored value 0. -/
theorem c10_witness :
    ({ samplePost with scheduled_date := 9, updated_at := 9 } : Post).scheduled_date =
      c10Req.blob.scheduled_date.getD 9 :=
  c10_scheduled_date_always_written "k" 9 c10Req [samplePost] 1 rfl (by decide)
    { samplePost with scheduled_date := 9, updated_at := 9 } (by decide) (by decide)

/-- A draft post with an empty platform list and empty-array media. -/
def draftNoPlatforms : Post :=
  { samplePost with status := "draft", platforms := [] }

/-- The create request of the C5 counterexample: correct secret, non-draft
creation, empty body text and empty platform list. -/
def c5CreateReq : CreateReq :=
  { secretKey := some "k", postData := some emptyFields,
    media := [], isDraft := false }

/-- The update request of the C5 counterexample: correct secret, only the
status field set, moving the post to pending with no platform supplied. -/
def c5PutReq : UpdateReq :=
  { id := some (some 1), secretKey := some "k",
    blob := { emptyBlob with status := some "pending" },
    media := [], deletedIdx := [] }

/-- C5 counterexample: the claim says a non-draft creation lacking body
text or with an empty platform list is rejected, and that moving a post to
pending without a platform is rejected. The code performs neither check:
the creation returns 201 and stores a pending post with empty text and no
platforms, and the update moving a platformless draft to pending returns
200 and stores status pending. -/
theorem c5_counterexample_no_validation :
    emptyFields.post_text = "" ∧ emptyFields.platforms = [] ∧
    (createPost (some "k") 0 1 c5CreateReq []).status = 201 ∧
    ((createPost (some "k") 0 1 c5CreateReq []).store.map Post.status = ["pending"]) ∧
    draftNoPlatforms.platforms = [] ∧
    (putPost (some "k") 5 c5PutReq [draftNoPlatforms]).status = 200 ∧
    ((putPost (some "k") 5 c5PutReq [draftNoPlatforms]).store.map Post.status = ["pending"]) ∧
    ((putPost (some "k") 5 c5PutReq [draftNoPlatforms]).store.map Post.platforms = [[]]) := by
  decide

/-- C5 amended: the create operation accepts a non-draft creation that
lacks body text or has an empty platform list (it validates only the
shared secret and the presence of the postData field), persisting status
pending; creating a draft with an empty platform list succeeds; and
moving a post to pending without at least one platform is accepted by the
update handler, which applies a supplied status without any platform
check. -/
theorem c5_amended_no_field_validation
    (k : String) (now : Int) (newId : Nat) (pd : PostFields) (store : List Post)
    (media : List String) (isDraft : Bool)
    (now2 : Int) (pid : Nat) (store2 : List Post) (post2 : Post) (req2 : UpdateReq)
    (hfind : store2.find? (fun p => p.id = pid) = some post2)
    (hst : post2.status = "draft")
    (hid : req2.id = some (some pid)) (hkey : req2.secretKey = some k)
    (hblob : req2.blob.status = some "pending")
    (fm : List String)
    (hcm : combineMedia (((store2.find? (fun p => p.id = pid)).map Post.post_media).getD .undef)
        req2.deletedIdx req2.media = .ok fm) :
    (createPost (some k) now newId
        { secretKey := some k, postData := some pd, media := media, isDraft := isDraft }
        store).status = 201 ∧
    (∀ p ∈ (createPost (some k) now newId
        { secretKey := some k, postData := some pd, media := media, isDraft := isDraft }
        store).store,
      p ∈ store ∨ p.status = (if isDraft then "draft" else "pending")) ∧
    (putPost (some k) now2 req2 store2).status = 200 ∧
    (∀ p ∈ (putPost (some k) now2 req2 store2).store, p.id = pid → p.status = "pending") := by
  have hput : putPost (some k) now2 req2 store2 = putApply now2 req2 store2 pid := by
    unfold putPost
    rw [hid]
    dsimp only
    rw [hfind]
    dsimp only
    have hb : (decide (post2.status = "draft") || decide (post2.status = "pending")) = true := by
      simp [hst]
    rw [if_pos hb, hkey]
    simp
  have hcreate : createPost (some k) now newId
      { secretKey := some k, postData := some pd, media := media, isDraft := isDraft } store =
      ⟨201, store ++ [createdRecord now newId pd media isDraft]⟩ := by
    unfold createPost
    simp
  refine ⟨by rw [hcreate], ?_, ?_, ?_⟩
  · intro p hp
    rw [hcreate] at hp
    dsimp only at hp
    rw [List.mem_append] at hp
    rcases hp with hp | hp
    · exact Or.inl hp
    · right
      rw [List.mem_singleton] at hp
      rw [hp]
      rfl
  · rw [hput]
    exact (putApply_ok_fields now2 req2 store2 pid fm hcm).1
  · rw [hput]
    intro p hp hpid
    exact ((putApply_ok_fields now2 req2 store2 pid fm hcm).2 p hp hpid).2.2 "pending" hblob

/-- Witness for C5 amended at concrete inputs: empty-text platformless
non-draft creation succeeds with a pending record, and the platformless
draft is moved to pending by the update. -/
theorem c5_amended_witness :
    (createPost (some "k") 0 1
        { secretKey := some "k", postData := some emptyFields, media := [], isDraft := false }
        []).status = 201 ∧
    (createdRecord 0 1 emptyFields [] false ∈ ([] : List Post) ∨
      (createdRecord 0 1 emptyFields [] false).status =
        (if (false : Bool) = true then "draft" else "pending")) ∧
    (putPost (some "k") 5 c5PutReq [draftNoPlatforms]).status = 200 ∧
    ({ draftNoPlatforms with
        status := "pending"
        scheduled_date := 5
        updated_at := 5 } : Post).status = "pending" := by
  have h := c5_amended_no_field_validation "k" 0 1 emptyFields [] [] false
    5 1 [draftNoPlatforms] draftNoPlatforms c5PutReq
    (by decide) rfl rfl rfl rfl [] rfl
  exact ⟨h.1, h.2.1 (createdRecord 0 1 emptyFields [] false) (by decide), h.2.2.1,
    h.2.2.2 { draftNoPlatforms with
        status := "pending"
        scheduled_date := 5
        updated_at := 5 } (by decide) (by decide)⟩

/-- A webhook payload carrying a status select value outside the data
model enumeration. -/
def bogusWebhookReq : WebhookReq :=
  { page_id := some "pg1", post_text := "hello", post_media := "",
    scheduled_date := some 0, team := "", post_notes := "",
    status := some "Totally Bogus", platforms := ["facebook"] }

/-- C6 counterexample: the webhook intake takes the status string from the
payload unvalidated, so a payload with status select name Totally Bogus is
accepted (200) and persists a record whose status is outside the
five-value enumeration. -/
theorem c6_counterexample_webhook_persists_any_status :
    (notionWebhook 0 1 bogusWebhookReq []).status = 200 ∧
    ((notionWebhook 0 1 bogusWebhookReq []).store.map Post.status = ["Totally Bogus"]) ∧
    isFiveStatus "Totally Bogus" = false := by
  decide

/-- C6 amended: the create handler, the dispatch trigger and the
completion callback only ever write statuses inside the five-value
enumeration (every record they touch either was already in the store or
carries an enumerated status), but the webhook intake, and the update
handler applying a client-supplied blob, persist arbitrary status
strings. -/
theorem c6_amended_enumerated_statuses :
    (∀ (sk : Option String) (now : Int) (newId : Nat) (req : CreateReq)
        (store : List Post) (p : Post),
      p ∈ (createPost sk now newId req store).store →
        p ∈ store ∨ isFiveStatus p.status = true) ∧
    (∀ (env : Env) (now : Int) (store : List Post) (p : Post),
      p ∈ dispatchTrigger env now store →
        p ∈ store ∨ isFiveStatus p.status = true) ∧
    (∀ (now : Int) (req : CleanupReq) (store : List Post) (p : Post),
      p ∈ (cleanupPost now req store).store →
        p ∈ store ∨ isFiveStatus p.status = true) := by
  refine ⟨?_, ?_, ?_⟩
  · intro sk now newId req store p hp
    unfold createPost at hp
    cases sk with
    | none => exact Or.inl hp
    | some s =>
      dsimp only at hp
      by_cases hkey : req.secretKey ≠ some s
      · rw [if_pos hkey] at hp
        exact Or.inl hp
      · rw [if_neg hkey] at hp
        cases hpd : req.postData with
        | none => rw [hpd] at hp; exact Or.inl hp
        | some pd =>
          rw [hpd] at hp
          dsimp only at hp
          rw [List.mem_append] at hp
          rcases hp with hp | hp
          · exact Or.inl hp
          · right
            rw [List.mem_singleton] at hp
            subst hp
            show isFiveStatus (if req.isDraft = true then "draft" else "pending") = true
            cases req.isDraft
            · rw [if_neg (by simp)]
              decide
            · rw [if_pos rfl]
              decide
  · intro env now store p hp
    unfold dispatchTrigger at hp
    rw [List.mem_map] at hp
    obtain ⟨q, hq, hpq⟩ := hp
    by_cases hs : dispatchSelects now q = true
    · rw [if_pos hs] at hpq
      subst hpq
      right
      show isFiveStatus (if (postToSocialMedia env q).success = true then "posted" else "failed") = true
      cases (postToSocialMedia env q).success <;> decide
    · rw [if_neg hs] at hpq
      subst hpq
      exact Or.inl hq
  · intro now req store p hp
    unfold cleanupPost at hp
    cases hpid : req.post_id with
    | none => rw [hpid] at hp; exact Or.inl hp
    | some o =>
      cases o with
      | none => rw [hpid] at hp; exact Or.inl hp
      | some pid =>
        rw [hpid] at hp
        dsimp only at hp
        by_cases hfound : (store.find? (fun q => q.id = pid)).isSome = true
        · rw [if_pos hfound] at hp
          rw [List.mem_map] at hp
          obtain ⟨q, hq, hpq⟩ := hp
          by_cases hqp : q.id = pid
          · rw [if_pos hqp] at hpq
            subst hpq
            right
            show isFiveStatus (if (cleanupLinks req).length > 0 then "posted" else "failed") = true
            by_cases hl : (cleanupLinks req).length > 0
            · rw [if_pos hl]
              decide
            · rw [if_neg hl]
              decide
          · rw [if_neg hqp] at hpq
            subst hpq
            exact Or.inl hq
        · rw [if_neg hfound] at hp
          exact Or.inl hp

/-- A draft creation request used to witness the amended C6. -/
def c6CreateReq : CreateReq :=
  { secretKey := some "k", postData := some emptyFields, media := [], isDraft := true }

/-- Witness for C6 amended at a concrete create: the inserted record
carries an enumerated status. -/
theorem c6_amended_witness :
    createdRecord 0 1 emptyFields [] true ∈ ([] : List Post) ∨
    isFiveStatus (createdRecord 0 1 emptyFields [] true).status = true :=
  c6_amended_enumerated_statuses.1 (some "k") 0 1 c6CreateReq []
    (createdRecord 0 1 emptyFields [] true) (by decide)

/-- Insertion into the descending sort preserves the element set. -/
theorem mem_insertByCreatedDesc (p q : Post) (l : List Post) :
    q ∈ insertByCreatedDesc p l ↔ q = p ∨ q ∈ l := by
  induction l with
  | nil => simp [insertByCreatedDesc]
  | cons a l ih =>
    unfold insertByCreatedDesc
    by_cases h : a.created_at ≤ p.created_at
    · rw [if_pos h]
      simp
    · rw [if_neg h]
      simp only [List.mem_cons, ih]
      tauto

/-- The descending sort of the list endpoint preserves the element set. -/
theorem mem_sortByCreatedDesc (l : List Post) (q : Post) :
    q ∈ sortByCreatedDesc l ↔ q ∈ l := by
  induction l with
  | nil => simp [sortByCreatedDesc]
  | cons a l ih =>
    show q ∈ insertByCreatedDesc a (sortByCreatedDesc l) ↔ _
    rw [mem_insertByCreatedDesc, ih]
    simp

/-- C7: with a truthy status filter, every record on the returned page has
exactly the filtered status, and the counts returned alongside are the
per-status totals of the whole stored collection, for any filter, limit
and skip. -/
theorem c7_filter_page_and_counts (store : List Post) (limitv skipv : Nat)
    (s : String) (hs : s ≠ "") (f : Option String) (l2 k2 : Nat) :
    (∀ p ∈ (listPosts store limitv skipv (some s)).posts, p.status = s) ∧
    ((listPosts store l2 k2 f).total = store.length ∧
     (listPosts store l2 k2 f).draft = countStatus store "draft" ∧
     (listPosts store l2 k2 f).pending = countStatus store "pending" ∧
     (listPosts store l2 k2 f).posted = countStatus store "posted" ∧
     (listPosts store l2 k2 f).failed = countStatus store "failed" ∧
     (listPosts store l2 k2 f).partialSuccess = countStatus store "partial_success") := by
  constructor
  · intro p hp
    unfold listPosts at hp
    have ht : optStrTruthy (some s) = true := by
      simpa [optStrTruthy] using hs
    rw [if_pos ht] at hp
    dsimp only at hp
    have hp2 : p ∈ sortByCreatedDesc (store.filter fun q => q.status = (some s).getD "") :=
      List.drop_subset _ _ (List.take_subset _ _ hp)
    rw [mem_sortByCreatedDesc] at hp2
    have := (List.mem_filter.mp hp2).2
    simpa using this
  · exact ⟨rfl, rfl, rfl, rfl, rfl, rfl⟩

/-- The store of the C7 witness: one pending and one draft post. -/
def c7Store : List Post := [samplePost, draftNoPlatforms]

/-- Witness for C7 on a two-element store filtered to pending: the sample
post sits on the filtered page with status pending, and the counts of an
unfiltered listing are the per-status totals. -/
theorem c7_witness :
    samplePost.status = "pending" ∧
    ((listPosts c7Store 20 0 none).total = c7Store.length ∧
     (listPosts c7Store 20 0 none).draft = countStatus c7Store "draft" ∧
     (listPosts c7Store 20 0 none).pending = countStatus c7Store "pending" ∧
     (listPosts c7Store 20 0 none).posted = countStatus c7Store "posted" ∧
     (listPosts c7Store 20 0 none).failed = countStatus c7Store "failed" ∧
     (listPosts c7Store 20 0 none).partialSuccess =
       countStatus c7Store "partial_success") :=
  ⟨(c7_filter_page_and_counts c7Store 20 0 "pending" (by decide) none 20 0).1
      samplePost (by decide),
   (c7_filter_page_and_counts c7Store 20 0 "pending" (by decide) none 20 0).2⟩

/-- A truthy optional string round-trips through the empty-string default. -/
theorem optStrTruthy_some (o : Option String) (h : optStrTruthy o = true) :
    some (o.getD "") = o := by
  cases o with
  | none => simp [optStrTruthy] at h
  | some s => rfl

/-- A conditional singleton segment with a different key contributes
nothing to a key lookup. -/
theorem find?_irrelevant_segment (c : Bool) (k0 v k : String) (hk : k0 ≠ k) :
    List.find? (fun p => p.1 = k) (if c = true then [(k0, v)] else []) = none := by
  cases c <;> simp [hk]

/-- Facebook lookup in the callback links record. -/
theorem recGet_cleanupLinks_facebook (req : CleanupReq) :
    recGet (cleanupLinks req) "facebook" =
      (if optStrTruthy req.facebook_url then req.facebook_url else none) := by
  unfold cleanupLinks recGet
  rw [List.find?_append, List.find?_append, List.find?_append,
    find?_irrelevant_segment (optStrTruthy req.linkedin_url) "linkedin" _ "facebook" (by decide),
    find?_irrelevant_segment (optStrTruthy req.instagram_url) "instagram" _ "facebook" (by decide),
    find?_irrelevant_segment (optStrTruthy req.x_url) "x" _ "facebook" (by decide)]
  cases hf : optStrTruthy req.facebook_url
  · simp
  · simp [optStrTruthy_some _ hf]

/-- LinkedIn lookup in the callback links record. -/
theorem recGet_cleanupLinks_linkedin (req : CleanupReq) :
    recGet (cleanupLinks req) "linkedin" =
      (if optStrTruthy req.linkedin_url then req.linkedin_url else none) := by
  unfold cleanupLinks recGet
  rw [List.find?_append, List.find?_append, List.find?_append,
    find?_irrelevant_segment (optStrTruthy req.facebook_url) "facebook" _ "linkedin" (by decide),
    find?_irrelevant_segment (optStrTruthy req.instagram_url) "instagram" _ "linkedin" (by decide),
    find?_irrelevant_segment (optStrTruthy req.x_url) "x" _ "linkedin" (by decide)]
  cases hl : optStrTruthy req.linkedin_url
  · simp
  · simp [optStrTruthy_some _ hl]

/-- Instagram lookup in the callback links record. -/
theorem recGet_cleanupLinks_instagram (req : CleanupReq) :
    recGet (cleanupLinks req) "instagram" =
      (if optStrTruthy req.instagram_url then req.instagram_url else none) := by
  unfold cleanupLinks recGet
  rw [List.find?_append, List.find?_append, List.find?_append,
    find?_irrelevant_segment (optStrTruthy req.facebook_url) "facebook" _ "instagram" (by decide),
    find?_irrelevant_segment (optStrTruthy req.linkedin_url) "linkedin" _ "instagram" (by decide),
    find?_irrelevant_segment (optStrTruthy req.x_url) "x" _ "instagram" (by decide)]
  cases hi : optStrTruthy req.instagram_url
  · simp
  · simp [optStrTruthy_some _ hi]

/-- X lookup in the callback links record. -/
theorem recGet_cleanupLinks_x (req : CleanupReq) :
    recGet (cleanupLinks req) "x" =
      (if optStrTruthy req.x_url then req.x_url else none) := by
  unfold cleanupLinks recGet
  rw [List.find?_append, List.find?_append, List.find?_append,
    find?_irrelevant_segment (optStrTruthy req.facebook_url) "facebook" _ "x" (by decide),
    find?_irrelevant_segment (optStrTruthy req.linkedin_url) "linkedin" _ "x" (by decide),
    find?_irrelevant_segment (optStrTruthy req.instagram_url) "instagram" _ "x" (by decide)]
  cases hx : optStrTruthy req.x_url
  · simp
  · simp [optStrTruthy_some _ hx]

/-- No key outside the four platform keys occurs in the callback links
record. -/
theorem recGet_cleanupLinks_other (req : CleanupReq) (k : String)
    (h1 : k ≠ "facebook") (h2 : k ≠ "linkedin") (h3 : k ≠ "instagram")
    (h4 : k ≠ "x") :
    recGet (cleanupLinks req) k = none := by
  unfold cleanupLinks recGet
  rw [List.find?_append, List.find?_append, List.find?_append,
    find?_irrelevant_segment (optStrTruthy req.facebook_url) "facebook" _ k (Ne.symm h1),
    find?_irrelevant_segment (optStrTruthy req.linkedin_url) "linkedin" _ k (Ne.symm h2),
    find?_irrelevant_segment (optStrTruthy req.instagram_url) "instagram" _ k (Ne.symm h3),
    find?_irrelevant_segment (optStrTruthy req.x_url) "x" _ k (Ne.symm h4)]
  rfl

/-- The callback links record is nonempty exactly when at least one of the
four URL fields is truthy. -/
theorem cleanupLinks_nonempty_iff (req : CleanupReq) :
    (cleanupLinks req).length > 0 ↔
      (optStrTruthy req.facebook_url || optStrTruthy req.linkedin_url ||
       optStrTruthy req.instagram_url || optStrTruthy req.x_url) = true := by
  unfold cleanupLinks
  cases optStrTruthy req.facebook_url <;>
    cases optStrTruthy req.linkedin_url <;>
      cases optStrTruthy req.instagram_url <;>
        cases optStrTruthy req.x_url <;> simp

/-- C8: for a completion callback carrying a well-formed post_id that
matches a stored record, the response is 200 and the matched record is
finalized: status posted exactly when at least one platform URL was
supplied (failed otherwise), and post_links holds exactly the supplied
platform URLs, keyed facebook, linkedin, instagram and x, with no other
key present. -/
theorem c8_cleanup_finalizes (now : Int) (req : CleanupReq) (store : List Post)
    (pid : Nat) (hid : req.post_id = some (some pid))
    (hfound : (store.find? (fun p => p.id = pid)).isSome = true) :
    (cleanupPost now req store).status = 200 ∧
    ∀ p ∈ (cleanupPost now req store).store, p.id = pid →
      ((p.status = "posted" ∨ p.status = "failed") ∧
       (p.status = "posted" ↔
         (optStrTruthy req.facebook_url || optStrTruthy req.linkedin_url ||
          optStrTruthy req.instagram_url || optStrTruthy req.x_url) = true) ∧
       recGet p.post_links "facebook" =
         (if optStrTruthy req.facebook_url then req.facebook_url else none) ∧
       recGet p.post_links "linkedin" =
         (if optStrTruthy req.linkedin_url then req.linkedin_url else none) ∧
       recGet p.post_links "instagram" =
         (if optStrTruthy req.instagram_url then req.instagram_url else none) ∧
       recGet p.post_links "x" =
         (if optStrTruthy req.x_url then req.x_url else none) ∧
       (∀ k, k ≠ "facebook" → k ≠ "linkedin" → k ≠ "instagram" → k ≠ "x" →
         recGet p.post_links k = none)) := by
  unfold cleanupPost
  rw [hid]
  dsimp only
  rw [if_pos hfound]
  refine ⟨rfl, ?_⟩
  intro p hp hpid
  rw [List.mem_map] at hp
  obtain ⟨q, hq, hpq⟩ := hp
  by_cases hqp : q.id = pid
  · rw [if_pos hqp] at hpq
    subst hpq
    refine ⟨?_, ?_, recGet_cleanupLinks_facebook req, recGet_cleanupLinks_linkedin req,
      recGet_cleanupLinks_instagram req, recGet_cleanupLinks_x req,
      recGet_cleanupLinks_other req⟩
    · show (if (cleanupLinks req).length > 0 then "posted" else "failed") = "posted" ∨
        (if (cleanupLinks req).length > 0 then "posted" else "failed") = "failed"
      by_cases hl : (cleanupLinks req).length > 0
      · exact Or.inl (if_pos hl)
      · exact Or.inr (if_neg hl)
    · show (if (cleanupLinks req).length > 0 then "posted" else "failed") = "posted" ↔ _
      by_cases hl : (cleanupLinks req).length > 0
      · rw [if_pos hl]
        exact ⟨fun _ => (cleanupLinks_nonempty_iff req).mp hl, fun _ => rfl⟩
      · rw [if_neg hl]
        constructor
        · intro h
          exact absurd h (by decide)
        · intro h
          exact absurd ((cleanupLinks_nonempty_iff req).mpr h) hl
  · rw [if_neg hqp] at hpq
    subst hpq
    exact absurd hpid hqp

/-- The completion callback payload used to witness C8: formally valid
post_id 1, a facebook URL, an empty instagram URL (falsy), no other URLs. -/
def c8Req : CleanupReq :=
  { post_id := some (some 1), facebook_url := some "https://facebook.com/post/77",
    linkedin_url := none, instagram_url := some "", x_url := none }

/-- Witness for C8: applying the theorem to the concrete callback request
on a store containing the sample post. -/
theorem c8_witness :
    (cleanupPost 3 c8Req [samplePost]).status = 200 :=
  (c8_cleanup_finalizes 3 c8Req [samplePost] 1 rfl (by decide)).1

/-- The LinkedIn publisher result is key-exact: success comes with a links
record holding exactly one linkedin entry, failure with no links field. -/
theorem postToLinkedIn_links_char (env : Env) (post : Post) :
    ((postToLinkedIn env post).success = true ∧
      ∃ u, (postToLinkedIn env post).links = some [("linkedin", u)]) ∨
    ((postToLinkedIn env post).success = false ∧
      (postToLinkedIn env post).links = none) := by
  unfold postToLinkedIn postToLinkedInBody
  cases h1 : optStrTruthy env.linkedinToken
  · exact Or.inr ⟨rfl, rfl⟩
  · cases hm : post.post_media with
    | undef =>
      cases h6 : env.liPublishOk
      · exact Or.inr ⟨rfl, rfl⟩
      · exact Or.inl ⟨rfl, _, rfl⟩
    | arr xs => exact Or.inr ⟨rfl, rfl⟩
    | str s =>
      by_cases hs : s = ""
      · subst hs
        cases h6 : env.liPublishOk
        · exact Or.inr ⟨rfl, rfl⟩
        · exact Or.inl ⟨rfl, _, rfl⟩
      · rw [if_pos (show (MediaVal.str s).truthy = true by simp [MediaVal.truthy, hs])]
        cases h3 : env.liRegisterOk
        · exact Or.inr ⟨rfl, rfl⟩
        · cases h4 : env.liDownloadOk
          · exact Or.inr ⟨rfl, rfl⟩
          · cases h5 : env.liUploadOk
            · exact Or.inr ⟨rfl, rfl⟩
            · cases h6 : env.liPublishOk
              · exact Or.inr ⟨rfl, rfl⟩
              · exact Or.inl ⟨rfl, _, rfl⟩

/-- Every publisher reached through the platform switch is key-exact for
the lowercased platform name: success yields exactly one links entry under
that key, failure yields no links. -/
theorem publishPlatform_links_char (env : Env) (post : Post) (pf : String) :
    ((publishPlatform env post pf).success = true ∧
      ∃ u, (publishPlatform env post pf).links = some [(jsToLower pf, u)]) ∨
    ((publishPlatform env post pf).success = false ∧
      (publishPlatform env post pf).links = none) := by
  unfold publishPlatform
  split
  next heq => rw [heq]; exact Or.inl ⟨rfl, _, rfl⟩
  next heq => rw [heq]; exact postToLinkedIn_links_char env post
  next heq => rw [heq]; exact Or.inl ⟨rfl, _, rfl⟩
  next x h1 h2 h3 => exact Or.inr ⟨rfl, rfl⟩

/-- Overwriting every binding of one key in place leaves key membership
unchanged. -/
theorem recHas_overwrite (m : List (String × String)) (k0 v k : String) :
    recHas (m.map (fun p => if p.1 = k0 then (k0, v) else p)) k = recHas m k := by
  induction m with
  | nil => rfl
  | cons a m ih =>
    unfold recHas at ih ⊢
    rw [List.map_cons, List.any_cons, List.any_cons, ih]
    congr 1
    by_cases ha : a.1 = k0
    · rw [if_pos ha, ha]
    · rw [if_neg ha]

/-- Key membership after a JavaScript property assignment: the keys are
those already present plus the assigned one. -/
theorem recHas_recSet (m : List (String × String)) (k0 v k : String) :
    recHas (recSet m k0 v) k = (recHas m k || (k0 = k : Bool)) := by
  unfold recSet
  by_cases h : m.any (fun p => p.1 = k0)
  · rw [if_pos h]
    rw [show recHas (m.map (fun p => if p.1 = k0 then (k0, v) else p)) k
        = recHas m k from recHas_overwrite m k0 v k]
    by_cases hk : k0 = k
    · subst hk
      have hh : recHas m k0 = true := h
      rw [hh]
      simp
    · have hd : (k0 = k : Bool) = false := by simp [hk]
      rw [hd, Bool.or_false]
  · rw [if_neg h]
    unfold recHas
    rw [List.any_append]
    congr 1
    simp

/-- One platform-loop iteration adds exactly the lowercased platform key
when its publisher succeeds, and no key otherwise. -/
theorem mergePlatform_has (env : Env) (post : Post) (acc : AggResult) (pf k : String) :
    recHas (mergePlatform env post acc pf).links k = true ↔
      (recHas acc.links k = true ∨
        (jsToLower pf = k ∧ (publishPlatform env post pf).success = true)) := by
  have hch := publishPlatform_links_char env post pf
  unfold mergePlatform
  dsimp only
  rcases hch with ⟨hs, u, hl⟩ | ⟨hs, hl⟩
  · rw [hl]
    dsimp only
    rw [show recMerge acc.links [(jsToLower pf, u)]
        = recSet acc.links (jsToLower pf) u from rfl]
    rw [recHas_recSet]
    rw [hs]
    simp
  · rw [hl]
    dsimp only
    rw [hs]
    simp

/-- Invariant of the platform fold: a key is present in the accumulated
links exactly when it was already present or some remaining platform
lowercases to it and its publisher succeeds. -/
theorem foldl_mergePlatform_has (env : Env) (post : Post) (ps : List String)
    (acc : AggResult) (k : String) :
    recHas (ps.foldl (mergePlatform env post) acc).links k = true ↔
      (recHas acc.links k = true ∨
        ∃ pf ∈ ps, jsToLower pf = k ∧ (publishPlatform env post pf).success = true) := by
  induction ps generalizing acc with
  | nil => simp
  | cons pf ps ih =>
    rw [List.foldl_cons, ih, mergePlatform_has]
    simp only [List.mem_cons]
    constructor
    · rintro ((hacc | ⟨hk, hsucc⟩) | ⟨pf2, h2, h3, h4⟩)
      · exact Or.inl hacc
      · exact Or.inr ⟨pf, Or.inl rfl, hk, hsucc⟩
      · exact Or.inr ⟨pf2, Or.inr h2, h3, h4⟩
    · rintro (hacc | ⟨pf2, (rfl | h2), h3, h4⟩)
      · exact Or.inl (Or.inl hacc)
      · exact Or.inl (Or.inr ⟨h3, h4⟩)
      · exact Or.inr ⟨pf2, h2, h3, h4⟩

/-- C2: for a post with a non-empty platform list, the links record of the
dispatch aggregator contains a key exactly when some listed platform
lowercases to that key and its publisher succeeded; failed and unsupported
platforms contribute no entry. -/
theorem c2_links_exactly_successful_platforms (env : Env) (post : Post)
    (hne : post.platforms ≠ []) (k : String) :
    recHas (postToSocialMedia env post).links k = true ↔
      ∃ pf ∈ post.platforms, jsToLower pf = k ∧
        (publishPlatform env post pf).success = true := by
  unfold postToSocialMedia
  rw [foldl_mergePlatform_has]
  simp [recHas]

/-- Witness for C2 on the sample post: the facebook key is present (its
publisher succeeds) while the linkedin key is absent (its publisher fails
for want of a token). -/
theorem c2_witness :
    (["facebook", "linkedin"] ≠ ([] : List String)) ∧
    recHas (postToSocialMedia envNoToken samplePost).links "facebook" = true ∧
    recHas (postToSocialMedia envNoToken samplePost).links "linkedin" ≠ true :=
  ⟨by decide,
   (c2_links_exactly_successful_platforms envNoToken samplePost (by decide) "facebook").mpr
     ⟨"facebook", by decide, by decide, by decide⟩,
   by decide⟩
